import Mathlib

/-!
Shallow embedding of the layout-card client-side modules: the fit-to-box
text policy (text-fit.js) and the responsive layout policy engine
(layout-policy.js), together with proofs about their contracts.
-/

namespace LayoutCard

/-- Measured geometry of an element in some rendered state: the scroll
(content) extents and the client (visible) extents, in device pixels. -/
structure Measured where
  scrollHeight : Int
  clientHeight : Int
  scrollWidth : Int
  clientWidth : Int

/-- The function isOverflowing from text-fit.js: overflow check based on
scroll size vs client size, on both axes, with a 1 pixel tolerance. -/
def isOverflowing (m : Measured) : Bool :=
  let overflowH := decide (m.scrollHeight - m.clientHeight > 1)
  let overflowW := decide (m.scrollWidth - m.clientWidth > 1)
  overflowH || overflowW

/-- The state of a target element: its inline font-size style property plus
all of its remaining state, kept opaque (the code never touches it). -/
structure ElemState (α : Type) where
  fontSize : Int
  rest : α

/-- The opts argument of fitText: each bound is either a supplied number or
absent (a field that is missing or not a number fails the typeof test). -/
structure FitOpts where
  minPx : Option Int
  maxPx : Option Int

/-- Result of the while loop inside fitText: the final value of best, the
number of isOverflowing measurements made, and the successive font sizes
assigned to the element by the loop body, in order. -/
structure LoopOut where
  best : Int
  measures : Nat
  writes : List Int

/-- Floor division by 2 leaves a quotient q with 2q le a lt 2q+2. -/
theorem fdiv2_bounds (a : Int) : 2 * a.fdiv 2 ≤ a ∧ a < 2 * a.fdiv 2 + 2 := by
  rw [Int.fdiv_eq_ediv a (by norm_num)]
  omega

/-- The while loop of fitText (source lines 42 to 52): binary search over
integer font sizes.  mid is Math.floor((lo+hi)/2), the element font size is
set to mid and measured; on overflow hi becomes mid-1, otherwise best
becomes mid and lo becomes mid+1. -/
def fitLoop (ov : Int → Bool) (lo hi best : Int) : LoopOut :=
  if h : lo ≤ hi then
    let mid := (lo + hi).fdiv 2
    if ov mid then
      let p := fitLoop ov lo (mid - 1) best
      ⟨p.best, p.measures + 1, mid :: p.writes⟩
    else
      let p := fitLoop ov (mid + 1) hi mid
      ⟨p.best, p.measures + 1, mid :: p.writes⟩
  else ⟨best, 0, []⟩
termination_by (hi + 1 - lo).toNat
decreasing_by
  · have := fdiv2_bounds (lo + hi); omega
  · have := fdiv2_bounds (lo + hi); omega

/-- Trace of one fitText invocation: every value assigned to the font-size
style property, in order, and the number of isOverflowing measurements. -/
structure FitTrace where
  writes : List Int
  measures : Nat
deriving DecidableEq

/-- Resolution of opts.minPx inside fitText (source line 29): a supplied
number is used as given, anything else falls back to 12. -/
def optMin (opts : FitOpts) : Int :=
  match opts.minPx with
  | some n => n
  | none => 12

/-- Resolution of opts.maxPx inside fitText (source line 30): a supplied
number is used as given, anything else falls back to 28. -/
def optMax (opts : FitOpts) : Int :=
  match opts.maxPx with
  | some n => n
  | none => 28

/-- The function fitText from text-fit.js.  geom gives the measured
geometry of the element as a function of the currently assigned font size
(the only style the code writes).  Bounds default to 12 and 28 when the
corresponding opts field is missing or not a number.  The element font size
is first reset to maxPx and measured; if it already fits the function
returns at once, otherwise the binary search runs and the final best is
assigned. -/
def fitText {α : Type} (geom : Int → Measured) (opts : FitOpts) (el : ElemState α) :
    ElemState α × FitTrace :=
  let minPx := optMin opts
  let maxPx := optMax opts
  if isOverflowing (geom maxPx) = false then
    ({ el with fontSize := maxPx }, ⟨[maxPx], 1⟩)
  else
    let p := fitLoop (fun s => isOverflowing (geom s)) minPx maxPx minPx
    ({ el with fontSize := p.best }, ⟨maxPx :: (p.writes ++ [p.best]), p.measures + 1⟩)

/-- The function chooseColumns from layout-policy.js: column count policy
from the container content width. -/
def chooseColumns (width : Int) : Int :=
  if width < 520 then 1
  else if width < 900 then 2
  else if width < 1200 then 3
  else if width < 1600 then 4
  else 5

/-- The function computeCardMin from layout-policy.js: minimum card width
given container width, desired columns and gap, clamped below at 240. -/
def computeCardMin (width cols gapPx : Int) : Int :=
  let totalGaps := gapPx * max 0 (cols - 1)
  let raw := (width - totalGaps).fdiv cols
  max raw 240

/-- A JavaScript number that is either an actual integer or NaN (the result
of a failed parseInt). -/
inductive JSNum where
  | num : Int → JSNum
  | nan : JSNum
deriving DecidableEq

/-- Model of JavaScript parseInt(s, 10): skip leading whitespace, read an
optional sign, then the longest run of decimal digits; the result is NaN
when no digit follows. -/
def parseIntJS (s : String) : JSNum :=
  let cs := s.toList.dropWhile fun c => c = ' ' || c = '\t' || c = '\n' || c = '\r'
  let signAndRest : Int × List Char :=
    match cs with
    | c :: t => if c = '-' then (-1, t) else if c = '+' then ((1 : Int), t) else (1, cs)
    | [] => (1, [])
  let ds := signAndRest.2.takeWhile Char.isDigit
  if ds.isEmpty then JSNum.nan
  else JSNum.num (signAndRest.1 * ((ds.foldl (fun a c => a * 10 + (c.toNat - 48)) 0 : Nat) : Int))

/-- The JavaScript string fallback pattern `a || dflt` applied to the value
of getAttribute: a missing attribute (null) and the empty string are falsy
and give the fallback, every other string is kept. -/
def attrOr (attr : Option String) (dflt : String) : String :=
  match attr with
  | none => dflt
  | some s => if s = "" then dflt else s

/-- The minPx bound computed per element by enableFitText (source line 80):
parseInt(el.getAttribute("data-fit-min") || "12", 10). -/
def elementMinPx (attr : Option String) : JSNum := parseIntJS (attrOr attr "12")

/-- The maxPx bound computed per element by enableFitText (source line 81):
parseInt(el.getAttribute("data-fit-max") || "28", 10). -/
def elementMaxPx (attr : Option String) : JSNum := parseIntJS (attrOr attr "28")

/-- The typeof test of fitText (source lines 29 and 30) applied to a bound
that enableFitText passes along: any JavaScript number, NaN included,
passes the typeof test and is used as given; only a missing or non-number
option falls back to the default. -/
def fitTextOptResolve (o : Option JSNum) (dflt : Int) : JSNum :=
  match o with
  | some n => n
  | none => JSNum.num dflt

/-- A geometry whose content overflows the box exactly at font sizes
strictly above 14 (only the height axis is active). -/
def geom14 (s : Int) : Measured :=
  ⟨if s ≤ 14 then 10 else 20, 10, 0, 0⟩

/-- A geometry that never overflows. -/
def geomFits (_s : Int) : Measured :=
  ⟨0, 0, 0, 0⟩

/-- A geometry that overflows at every font size. -/
def geomOverflow (_s : Int) : Measured :=
  ⟨20, 10, 0, 0⟩

/-- An element with no tracked state beyond its font size. -/
def elU : ElemState Unit :=
  ⟨0, ()⟩

/-- The loop of fitLoop is skipped entirely when lo exceeds hi. -/
theorem fitLoop_empty (ov : Int → Bool) (lo hi best : Int) (h : ¬ lo ≤ hi) :
    fitLoop ov lo hi best = ⟨best, 0, []⟩ := by
  rw [fitLoop]
  simp [h]

/-- Main invariant of the binary search: starting from a state in which
best is a known answer for everything below lo, everything above hi
overflows, and the predicate is monotone, the loop returns the largest
fitting size in range (or minPx when nothing in range fits). -/
theorem fitLoop_invariant (ov : Int → Bool) (minPx maxPx : Int)
    (mono : ∀ s t : Int, s ≤ t → ov s = true → ov t = true) (lo hi best : Int) :
    minPx ≤ lo → hi ≤ maxPx → minPx ≤ best → best ≤ maxPx →
    (best = minPx ∨ ov best = false) →
    (∀ s : Int, ov s = false → s ≤ maxPx → s < lo → s ≤ best) →
    (∀ s : Int, hi < s → s ≤ maxPx → ov s = true) →
    (minPx ≤ (fitLoop ov lo hi best).best ∧ (fitLoop ov lo hi best).best ≤ maxPx ∧
      ((fitLoop ov lo hi best).best = minPx ∨ ov (fitLoop ov lo hi best).best = false) ∧
      ∀ s : Int, minPx ≤ s → s ≤ maxPx → ov s = false → s ≤ (fitLoop ov lo hi best).best) := by
  induction lo, hi, best using fitLoop.induct ov with
  | case1 lo hi best hlh mid hov ih =>
    intro h1 h2 h3 h4 h5 h6 h7
    have hb := fdiv2_bounds (lo + hi)
    rw [fitLoop, dif_pos hlh]
    simp only [hov, if_true]
    exact ih h1 (by omega) h3 h4 h5 h6 (fun s hs1 hs2 => mono mid s (by omega) hov)
  | case2 lo hi best hlh mid hov ih =>
    intro h1 h2 h3 h4 h5 h6 h7
    have hb := fdiv2_bounds (lo + hi)
    have hovf : ov mid = false := by simpa using hov
    rw [fitLoop, dif_pos hlh, if_neg hov]
    exact ih (by omega) h2 (by omega) (by omega) (Or.inr hovf)
      (fun s hs1 hs2 hs3 => by omega) h7
  | case3 lo hi best hlh =>
    intro h1 h2 h3 h4 h5 h6 h7
    rw [fitLoop_empty ov _ _ _ hlh]
    refine ⟨h3, h4, h5, ?_⟩
    intro s hs1 hs2 hs3
    by_cases hslo : s < lo
    · exact h6 s hs3 hs2 hslo
    · exact absurd (h7 s (by omega) hs2) (by simp [hs3])

/-- The loop halves the search range each round, so the number of
measurements it makes is at most floor(log2 of the range size) plus one. -/
theorem fitLoop_measures (ov : Int → Bool) (lo hi best : Int) :
    (fitLoop ov lo hi best).measures ≤ Nat.log 2 (hi + 1 - lo).toNat + 1 := by
  induction lo, hi, best using fitLoop.induct ov with
  | case1 lo hi best hlh mid hov ih =>
    have hb := fdiv2_bounds (lo + hi)
    rw [fitLoop, dif_pos hlh, if_pos hov]
    show (fitLoop ov lo (mid - 1) best).measures + 1 ≤ Nat.log 2 (hi + 1 - lo).toNat + 1
    by_cases hsub : lo ≤ mid - 1
    · have h1 : ((mid - 1) + 1 - lo).toNat * 2 ≤ (hi + 1 - lo).toNat := by omega
      have h2 : ((mid - 1) + 1 - lo).toNat ≠ 0 := by omega
      have h3 := Nat.log_mul_base (b := 2) (by norm_num) h2
      have h4 := Nat.log_mono_right (b := 2) h1
      omega
    · rw [fitLoop_empty ov _ _ _ hsub]
      simp
  | case2 lo hi best hlh mid hov ih =>
    have hb := fdiv2_bounds (lo + hi)
    rw [fitLoop, dif_pos hlh, if_neg hov]
    show (fitLoop ov (mid + 1) hi mid).measures + 1 ≤ Nat.log 2 (hi + 1 - lo).toNat + 1
    by_cases hsub : mid + 1 ≤ hi
    · have h1 : (hi + 1 - (mid + 1)).toNat * 2 ≤ (hi + 1 - lo).toNat := by omega
      have h2 : (hi + 1 - (mid + 1)).toNat ≠ 0 := by omega
      have h3 := Nat.log_mul_base (b := 2) (by norm_num) h2
      have h4 := Nat.log_mono_right (b := 2) h1
      omega
    · rw [fitLoop_empty ov _ _ _ hsub]
      simp
  | case3 lo hi best hlh =>
    rw [fitLoop_empty ov _ _ _ hlh]
    simp

/-- The overflow predicate of geom14 is true exactly above the threshold 14. -/
theorem geom14_threshold : ∀ s : Int, isOverflowing (geom14 s) = decide (14 < s) := by
  intro s
  by_cases h : s ≤ 14 <;> simp [geom14, isOverflowing, h] <;> omega

/-- The overflow predicate of geom14 is monotone non-decreasing. -/
theorem geom14_mono : ∀ s t : Int, s ≤ t →
    isOverflowing (geom14 s) = true → isOverflowing (geom14 t) = true := by
  intro s t hst h
  rw [geom14_threshold] at h ⊢
  simp at h ⊢
  omega

/-- C1: with bounds minPx le maxPx and a monotone non-decreasing overflow
predicate, fitText leaves the font size at the largest integer in
[minPx, maxPx] at which the predicate is false, or at minPx when the
predicate is true on the whole range; for a synthetic predicate true
exactly above a threshold inside the range, the result is exactly the
threshold. -/
theorem fitText_fit_result {α : Type} (geom : Int → Measured) (el : ElemState α)
    (minPx maxPx : Int) (hle : minPx ≤ maxPx)
    (mono : ∀ s t : Int, s ≤ t → isOverflowing (geom s) = true → isOverflowing (geom t) = true) :
    ((∃ s : Int, minPx ≤ s ∧ s ≤ maxPx ∧ isOverflowing (geom s) = false) →
      (minPx ≤ ((fitText geom ⟨some minPx, some maxPx⟩ el).1).fontSize ∧
        ((fitText geom ⟨some minPx, some maxPx⟩ el).1).fontSize ≤ maxPx ∧
        isOverflowing (geom (((fitText geom ⟨some minPx, some maxPx⟩ el).1).fontSize)) = false ∧
        ∀ s : Int, minPx ≤ s → s ≤ maxPx → isOverflowing (geom s) = false →
          s ≤ ((fitText geom ⟨some minPx, some maxPx⟩ el).1).fontSize)) ∧
    ((∀ s : Int, minPx ≤ s → s ≤ maxPx → isOverflowing (geom s) = true) →
      ((fitText geom ⟨some minPx, some maxPx⟩ el).1).fontSize = minPx) ∧
    (∀ t : Int, minPx ≤ t → t ≤ maxPx →
      (∀ s : Int, isOverflowing (geom s) = decide (t < s)) →
      ((fitText geom ⟨some minPx, some maxPx⟩ el).1).fontSize = t) := by
  by_cases hmax : isOverflowing (geom maxPx) = false
  · have hr : ((fitText geom ⟨some minPx, some maxPx⟩ el).1).fontSize = maxPx := by
      simp [fitText, optMin, optMax, hmax]
    rw [hr]
    refine ⟨fun hex => ⟨hle, le_rfl, hmax, fun s hs1 hs2 hs3 => hs2⟩, fun hall => ?_, ?_⟩
    · exact absurd (hall maxPx hle le_rfl) (by simp [hmax])
    · intro t ht1 ht2 hsym
      have := hsym maxPx
      rw [hmax] at this
      have : ¬ (t < maxPx) := by simpa using this.symm
      omega
  · have hmax2 : isOverflowing (geom maxPx) = true := by simpa using hmax
    have hr : ((fitText geom ⟨some minPx, some maxPx⟩ el).1).fontSize =
        (fitLoop (fun s => isOverflowing (geom s)) minPx maxPx minPx).best := by
      simp [fitText, optMin, optMax, hmax2]
    have inv := fitLoop_invariant (fun s => isOverflowing (geom s)) minPx maxPx mono
      minPx maxPx minPx le_rfl le_rfl le_rfl hle (Or.inl rfl)
      (fun s hs1 hs2 hs3 => by omega)
      (fun s hs1 hs2 => absurd hs2 (by omega))
    obtain ⟨i1, i2, i3, i4⟩ := inv
    rw [hr]
    refine ⟨fun hex => ⟨i1, i2, ?_, i4⟩, fun hall => ?_, ?_⟩
    · rcases i3 with hmin | hfit
      · obtain ⟨s, hs1, hs2, hs3⟩ := hex
        have hsr := i4 s hs1 hs2 hs3
        rw [hmin] at hsr ⊢
        have : s = minPx := by omega
        rw [← this]
        exact hs3
      · exact hfit
    · rcases i3 with hmin | hfit
      · exact hmin
      · exact absurd (hall _ i1 i2) (by simp [hfit])
    · intro t ht1 ht2 hsym
      have htfit : isOverflowing (geom t) = false := by
        rw [hsym t]; simp
      have htr := i4 t ht1 ht2 htfit
      rcases i3 with hmin | hfit
      · omega
      · have hfit2 : isOverflowing
            (geom ((fitLoop (fun s => isOverflowing (geom s)) minPx maxPx minPx).best)) =
            false := hfit
        rw [hsym _] at hfit2
        simp at hfit2
        omega

/-- Witness for C1: with bounds 10 and 20 and the threshold-14 geometry,
fitText settles on exactly 14. -/
theorem fitText_fit_result_witness :
    (10 : Int) ≤ 20 ∧ ((fitText geom14 ⟨some 10, some 20⟩ elU).1).fontSize = 14 := by
  refine ⟨by norm_num, ?_⟩
  exact (fitText_fit_result geom14 elU 10 20 (by norm_num) geom14_mono).2.2 14
    (by norm_num) (by norm_num) geom14_threshold

/-- C2: when the element does not overflow at maxPx, fitText returns at
once with font size maxPx, the loop body never runs (the only font-size
write is maxPx itself) and exactly one measurement is made. -/
theorem fitText_fast_path {α : Type} (geom : Int → Measured) (opts : FitOpts)
    (el : ElemState α) (h : isOverflowing (geom (optMax opts)) = false) :
    ((fitText geom opts el).1).fontSize = optMax opts ∧
    (fitText geom opts el).2.writes = [optMax opts] ∧
    (fitText geom opts el).2.measures = 1 := by
  simp [fitText, h]

/-- Witness for C2: a never-overflowing element with bounds 10 and 20 is
left at 20 after a single measurement. -/
theorem fitText_fast_path_witness :
    isOverflowing (geomFits (optMax ⟨some 10, some 20⟩)) = false ∧
    ((fitText geomFits ⟨some 10, some 20⟩ elU).1).fontSize = 20 ∧
    (fitText geomFits ⟨some 10, some 20⟩ elU).2.measures = 1 := by
  refine ⟨by decide, ?_, ?_⟩
  · have h := fitText_fast_path geomFits ⟨some 10, some 20⟩ elU (by decide)
    simpa [optMax] using h.1
  · exact (fitText_fast_path geomFits ⟨some 10, some 20⟩ elU (by decide)).2.2

/-- Counterexample to C3 as stated: with minPx = maxPx = 10 and an element
that always overflows, fitText makes 2 measurements, while the claimed
bound ceil(log2(maxPx - minPx + 1)) + 1 equals 1. -/
theorem fitText_log_bound_counterexample :
    (fitText geomOverflow ⟨some 10, some 10⟩ elU).2.measures = 2 ∧
    Nat.clog 2 ((10 : Int) - 10 + 1).toNat + 1 = 1 ∧
    ¬ ((fitText geomOverflow ⟨some 10, some 10⟩ elU).2.measures ≤
        Nat.clog 2 ((10 : Int) - 10 + 1).toNat + 1) := by
  have h1 : (fitText geomOverflow ⟨some 10, some 10⟩ elU).2.measures = 2 := by
    simp [fitText, optMin, optMax, fitLoop, isOverflowing, geomOverflow, Int.fdiv]
  have h2 : Nat.clog 2 ((10 : Int) - 10 + 1).toNat + 1 = 1 := by
    norm_num
  exact ⟨h1, h2, by omega⟩

/-- C3 amended: for minPx le maxPx the total number of measurements is at
most floor(log2(maxPx - minPx + 1)) + 2: one fast-path check plus at most
floor(log2 N) + 1 search iterations, and the search always terminates
(fitLoop is a total function). -/
theorem fitText_measures_le {α : Type} (geom : Int → Measured) (el : ElemState α)
    (minPx maxPx : Int) (hle : minPx ≤ maxPx) :
    (fitText geom ⟨some minPx, some maxPx⟩ el).2.measures ≤
      Nat.log 2 (maxPx - minPx + 1).toNat + 2 := by
  by_cases hmax : isOverflowing (geom maxPx) = false
  · have hm : (fitText geom ⟨some minPx, some maxPx⟩ el).2.measures = 1 := by
      simp [fitText, optMin, optMax, hmax]
    omega
  · have hmax2 : isOverflowing (geom maxPx) = true := by simpa using hmax
    have hm : (fitText geom ⟨some minPx, some maxPx⟩ el).2.measures =
        (fitLoop (fun s => isOverflowing (geom s)) minPx maxPx minPx).measures + 1 := by
      simp [fitText, optMin, optMax, hmax2]
    have hb := fitLoop_measures (fun s => isOverflowing (geom s)) minPx maxPx minPx
    have harg : (maxPx + 1 - minPx).toNat = (maxPx - minPx + 1).toNat := by omega
    rw [harg] at hb
    omega

/-- Witness for the amended C3: with bounds 10 and 20 and the threshold-14
geometry the number of measurements (5) is within floor(log2 11) + 2 = 5. -/
theorem fitText_measures_le_witness :
    (10 : Int) ≤ 20 ∧
    (fitText geom14 ⟨some 10, some 20⟩ elU).2.measures ≤
      Nat.log 2 ((20 : Int) - 10 + 1).toNat + 2 := by
  exact ⟨by norm_num, fitText_measures_le geom14 elU 10 20 (by norm_num)⟩

/-- C4: for any monotone overflow predicate and bounds minPx le maxPx, the
font size fitText finally leaves on the element is within
[minPx, maxPx]. -/
theorem fitText_bounds {α : Type} (geom : Int → Measured) (el : ElemState α)
    (minPx maxPx : Int) (hle : minPx ≤ maxPx)
    (mono : ∀ s t : Int, s ≤ t → isOverflowing (geom s) = true → isOverflowing (geom t) = true) :
    minPx ≤ ((fitText geom ⟨some minPx, some maxPx⟩ el).1).fontSize ∧
    ((fitText geom ⟨some minPx, some maxPx⟩ el).1).fontSize ≤ maxPx := by
  by_cases hmax : isOverflowing (geom maxPx) = false
  · have hr : ((fitText geom ⟨some minPx, some maxPx⟩ el).1).fontSize = maxPx := by
      simp [fitText, optMin, optMax, hmax]
    rw [hr]
    exact ⟨hle, le_rfl⟩
  · have hmax2 : isOverflowing (geom maxPx) = true := by simpa using hmax
    have hr : ((fitText geom ⟨some minPx, some maxPx⟩ el).1).fontSize =
        (fitLoop (fun s => isOverflowing (geom s)) minPx maxPx minPx).best := by
      simp [fitText, optMin, optMax, hmax2]
    have inv := fitLoop_invariant (fun s => isOverflowing (geom s)) minPx maxPx mono
      minPx maxPx minPx le_rfl le_rfl le_rfl hle (Or.inl rfl)
      (fun s hs1 hs2 hs3 => by omega)
      (fun s hs1 hs2 => absurd hs2 (by omega))
    rw [hr]
    exact ⟨inv.1, inv.2.1⟩

/-- Witness for C4: with bounds 10 and 20 and the threshold-14 geometry
the final size lies in [10, 20]. -/
theorem fitText_bounds_witness :
    (10 : Int) ≤ 20 ∧
    10 ≤ ((fitText geom14 ⟨some 10, some 20⟩ elU).1).fontSize ∧
    ((fitText geom14 ⟨some 10, some 20⟩ elU).1).fontSize ≤ 20 := by
  refine ⟨by norm_num, ?_⟩
  exact fitText_bounds geom14 elU 10 20 (by norm_num) geom14_mono

/-- C5: the overflow predicate is true exactly when the content extent
exceeds the visible extent by more than one pixel on either axis; as a
plain function of the measured state it has no side effects. -/
theorem isOverflowing_spec (m : Measured) :
    isOverflowing m = true ↔
      (m.scrollHeight - m.clientHeight > 1 ∨ m.scrollWidth - m.clientWidth > 1) := by
  simp [isOverflowing]

/-- Counterexample to C6 as stated: with the threshold-14 geometry and
bounds 10 and 20 (unchanged between the two runs), the second fitText run
leaves the size unchanged but performs 5 measurements, not only the
fast-path check. -/
theorem fitText_rerun_counterexample :
    ((fitText geom14 ⟨some 10, some 20⟩ ((fitText geom14 ⟨some 10, some 20⟩ elU).1)).1).fontSize =
      ((fitText geom14 ⟨some 10, some 20⟩ elU).1).fontSize ∧
    (fitText geom14 ⟨some 10, some 20⟩
      ((fitText geom14 ⟨some 10, some 20⟩ elU).1)).2.measures = 5 ∧
    ¬ ((fitText geom14 ⟨some 10, some 20⟩
      ((fitText geom14 ⟨some 10, some 20⟩ elU).1)).2.measures = 1) := by
  refine ⟨?_, ?_, ?_⟩ <;>
    simp [fitText, optMin, optMax, fitLoop, isOverflowing, geom14, Int.fdiv]

/-- C6 amended: re-invoking fitText with unchanged geometry and bounds
leaves the final font size unchanged and repeats exactly the trace of the
first run; it reduces to the single fast-path measurement precisely when
the element does not overflow at maxPx (the code always resets to maxPx
and searches again). -/
theorem fitText_rerun {α : Type} (geom : Int → Measured) (opts : FitOpts) (el : ElemState α) :
    ((fitText geom opts ((fitText geom opts el).1)).1).fontSize =
      ((fitText geom opts el).1).fontSize ∧
    (fitText geom opts ((fitText geom opts el).1)).2 = (fitText geom opts el).2 ∧
    (isOverflowing (geom (optMax opts)) = false →
      (fitText geom opts ((fitText geom opts el).1)).2.measures = 1) := by
  by_cases hmax : isOverflowing (geom (optMax opts)) = false <;>
    simp [fitText, hmax]

/-- Witness for the amended C6: on a never-overflowing element the re-run
takes only the fast-path measurement. -/
theorem fitText_rerun_witness :
    isOverflowing (geomFits (optMax ⟨some 10, some 20⟩)) = false ∧
    (fitText geomFits ⟨some 10, some 20⟩
      ((fitText geomFits ⟨some 10, some 20⟩ elU).1)).2.measures = 1 := by
  refine ⟨by decide, ?_⟩
  exact (fitText_rerun geomFits ⟨some 10, some 20⟩ elU).2.2 (by decide)

/-- Counterexample to C7 as stated: with minPx = 30 greater than
maxPx = 20 and an element that never overflows, the fast path leaves the
font size at maxPx = 20, not at minPx = 30. -/
theorem fitText_degenerate_counterexample :
    (20 : Int) < 30 ∧
    ((fitText geomFits ⟨some 30, some 20⟩ elU).1).fontSize = 20 ∧
    ((fitText geomFits ⟨some 30, some 20⟩ elU).1).fontSize ≠ 30 := by
  refine ⟨by norm_num, ?_, ?_⟩ <;> simp [fitText, optMin, optMax, isOverflowing, geomFits]

/-- C7 amended: when minPx is greater than maxPx the loop body never runs
and only the one fast-path measurement happens, and nothing crashes; the
final size is best = minPx exactly when the element overflows at maxPx,
and otherwise the fast path leaves it at maxPx. -/
theorem fitText_degenerate {α : Type} (geom : Int → Measured) (el : ElemState α)
    (minPx maxPx : Int) (h : maxPx < minPx) :
    (fitText geom ⟨some minPx, some maxPx⟩ el).2.measures = 1 ∧
    (isOverflowing (geom maxPx) = true →
      ((fitText geom ⟨some minPx, some maxPx⟩ el).1).fontSize = minPx ∧
      (fitText geom ⟨some minPx, some maxPx⟩ el).2.writes = [maxPx, minPx]) ∧
    (isOverflowing (geom maxPx) = false →
      ((fitText geom ⟨some minPx, some maxPx⟩ el).1).fontSize = maxPx ∧
      (fitText geom ⟨some minPx, some maxPx⟩ el).2.writes = [maxPx]) := by
  have hempty := fitLoop_empty (fun s => isOverflowing (geom s)) minPx maxPx minPx (by omega)
  by_cases hmax : isOverflowing (geom maxPx) = false
  · simp [fitText, optMin, optMax, hmax]
  · have hmax2 : isOverflowing (geom maxPx) = true := by simpa using hmax
    simp [fitText, optMin, optMax, hmax2, hempty]

/-- Witness for the amended C7: bounds 30 over 20 on an always-overflowing
element give one measurement and final size 30. -/
theorem fitText_degenerate_witness :
    (20 : Int) < 30 ∧
    (fitText geomOverflow ⟨some 30, some 20⟩ elU).2.measures = 1 ∧
    ((fitText geomOverflow ⟨some 30, some 20⟩ elU).1).fontSize = 30 := by
  refine ⟨by norm_num, ?_, ?_⟩
  · exact (fitText_degenerate geomOverflow elU 30 20 (by norm_num)).1
  · exact ((fitText_degenerate geomOverflow elU 30 20 (by norm_num)).2.1 (by decide)).1

/-- Counterexample to C8 as stated: for a present but non-numeric
data-fit-min value ("abc"), enableFitText computes NaN, and the typeof
test in fitText accepts NaN, so the bound actually used is NaN and not
the default 12. -/
theorem fitText_attr_fallback_counterexample :
    elementMinPx (some "abc") = JSNum.nan ∧
    fitTextOptResolve (some (elementMinPx (some "abc"))) 12 = JSNum.nan ∧
    JSNum.nan ≠ JSNum.num 12 := by
  refine ⟨by decide, by decide, by decide⟩

/-- C8 amended: a missing or empty attribute falls back to the defaults 12
and 28; a present non-numeric attribute parses to NaN, which fitText then
uses as given (its typeof test accepts every number, NaN included), so no
fallback to the default occurs; nothing in this path throws. -/
theorem fitText_attr_fallback :
    elementMinPx none = JSNum.num 12 ∧
    elementMaxPx none = JSNum.num 28 ∧
    elementMinPx (some "") = JSNum.num 12 ∧
    elementMinPx (some "abc") = JSNum.nan ∧
    (∀ a : Option String, fitTextOptResolve (some (elementMinPx a)) 12 = elementMinPx a) ∧
    (∀ a : Option String, fitTextOptResolve (some (elementMaxPx a)) 28 = elementMaxPx a) := by
  refine ⟨by decide, by decide, by decide, by decide, fun a => rfl, fun a => rfl⟩

/-- C9: fitText writes only the font-size property: the rest of the
element state is returned unchanged, every write in the trace is an
integer pixel value (the writes list is a list of integers), and the final
font size is the last write of the trace. -/
theorem fitText_frame {α : Type} (geom : Int → Measured) (opts : FitOpts) (el : ElemState α) :
    ((fitText geom opts el).1).rest = el.rest ∧
    ((fitText geom opts el).2).writes.getLast? = some (((fitText geom opts el).1).fontSize) := by
  by_cases hmax : isOverflowing (geom (optMax opts)) = false
  · simp [fitText, hmax]
  · refine ⟨by simp [fitText, hmax], ?_⟩
    have hw : ((fitText geom opts el).2).writes =
        optMax opts ::
          ((fitLoop (fun s => isOverflowing (geom s)) (optMin opts) (optMax opts)
              (optMin opts)).writes ++
            [(fitLoop (fun s => isOverflowing (geom s)) (optMin opts) (optMax opts)
              (optMin opts)).best]) := by
      simp [fitText, hmax]
    have hf : ((fitText geom opts el).1).fontSize =
        (fitLoop (fun s => isOverflowing (geom s)) (optMin opts) (optMax opts)
          (optMin opts)).best := by
      simp [fitText, hmax]
    rw [hw, hf, ← List.cons_append]
    exact List.getLast?_concat _

/-- C10: computeCardMin is clamped below at 240 for any width, column
count of at least one and gap, and chooseColumns always yields between 1
and 5 columns. -/
theorem layout_policy_bounds (width cols gapPx : Int) (hcols : 1 ≤ cols) :
    240 ≤ computeCardMin width cols gapPx ∧
    1 ≤ chooseColumns width ∧ chooseColumns width ≤ 5 := by
  refine ⟨le_max_right _ _, ?_, ?_⟩ <;>
    (simp only [chooseColumns]; split_ifs <;> norm_num)

/-- Witness for C10: a 1000 pixel wide container with 3 columns and the
default gap. -/
theorem layout_policy_bounds_witness :
    (1 : Int) ≤ 3 ∧ 240 ≤ computeCardMin 1000 3 16 ∧
    1 ≤ chooseColumns 1000 ∧ chooseColumns 1000 ≤ 5 := by
  refine ⟨by norm_num, ?_⟩
  exact layout_policy_bounds 1000 3 16 (by norm_num)

end LayoutCard
